import Mathlib

/-!
Shallow embedding of the stepper-motor control program (Steuerung.py).

The program drives two stepper motors through L298N H-bridges.  We model
GPIO effects explicitly: a pin-vector write (one call of the internal
step-setting helper) is a list of (pin, level) pairs, and every operation
returns, besides the updated motor state, the ordered list of pin-vector
writes it emitted.  Degrees are modeled as exact rationals; the Python
float modulo with positive modulus 360 is modeled by pymod.  Timing
(time.sleep) has no observable effect in this model; the delay argument is
kept to mirror the source signatures.
-/

/-- Full-step sequence: two coils active per vector (FULL_STEP). -/
def FULL_STEP : List (List Nat) :=
  [[1, 0, 1, 0],
   [0, 1, 1, 0],
   [0, 1, 0, 1],
   [1, 0, 0, 1]]

/-- Half-step sequence: eight entries, finer resolution (HALF_STEP). -/
def HALF_STEP : List (List Nat) :=
  [[1, 0, 0, 0],
   [1, 0, 1, 0],
   [0, 0, 1, 0],
   [0, 1, 1, 0],
   [0, 1, 0, 0],
   [0, 1, 0, 1],
   [0, 0, 0, 1],
   [1, 0, 0, 1]]

/-- Wave-drive sequence: one coil active per vector (WAVE_STEP). -/
def WAVE_STEP : List (List Nat) :=
  [[1, 0, 0, 0],
   [0, 0, 1, 0],
   [0, 1, 0, 0],
   [0, 0, 0, 1]]

/-- Named positions in degrees (POSITIONS dictionary). -/
def POSITIONS : List (Int × ℚ) :=
  [(0, 0), (1, 45), (2, 90), (3, 180), (4, 270)]

/-- Python float modulo for a positive modulus: x - y * floor (x / y). -/
def pymod (x y : ℚ) : ℚ := x - y * ⌊x / y⌋

/-- The sequence-selection logic at the head of rotate and rotate_both:
mode "half" selects HALF_STEP, mode "wave" selects WAVE_STEP, and every
other string falls through to FULL_STEP. -/
def sequenceFor (mode : String) : List (List Nat) :=
  if mode = "half" then HALF_STEP
  else if mode = "wave" then WAVE_STEP
  else FULL_STEP

/-- The steps-per-revolution multiplier computed in rotate_degrees:
2 if mode is "half" else 1. -/
def resolutionMultiplier (mode : String) : Nat :=
  if mode = "half" then 2 else 1

/-- A stepper motor: GPIO pin numbers, a display name, native steps per
revolution, and the tracked current position in degrees. -/
structure StepperMotor where
  pins : List Nat
  name : String
  steps_per_rev : Nat
  current_position : ℚ
  deriving DecidableEq

/-- One pin-vector write (the body of the step-setting helper):
pairs each owned pin with the corresponding level of the phase vector. -/
def StepperMotor.set_step (m : StepperMotor) (step : List Nat) :
    List (Nat × Nat) :=
  m.pins.zip step

/-- rotate: emits one pin-vector write per step, traversing the selected
sequence forward (clockwise) or mirrored (counter-clockwise).  The motor
state is returned unchanged: rotate performs no position bookkeeping. -/
def StepperMotor.rotate (m : StepperMotor) (steps : Nat) (delay : ℚ)
    (clockwise : Bool) (mode : String) :
    StepperMotor × List (List (Nat × Nat)) :=
  let sequence := sequenceFor mode
  let seq_len := sequence.length
  let _ := delay
  (m, (List.range steps).map (fun i =>
    let index := i % seq_len
    let index := if clockwise then index else seq_len - 1 - index
    m.set_step (sequence.getD index [])))

/-- rotate_degrees: converts an angle to a step count with Python int
(truncation toward zero, here floor of a non-negative rational), delegates
to rotate, then updates the position by the requested signed degrees,
taken modulo 360. -/
def StepperMotor.rotate_degrees (m : StepperMotor) (degrees : ℚ) (delay : ℚ)
    (clockwise : Bool) (mode : String) :
    StepperMotor × List (List (Nat × Nat)) :=
  let multiplier := resolutionMultiplier mode
  let steps : Nat := (⌊(|degrees| / 360) * m.steps_per_rev * multiplier⌋).toNat
  let writes := (m.rotate steps delay clockwise mode).2
  let newpos :=
    if clockwise then pymod (m.current_position + degrees) 360
    else pymod (m.current_position - degrees) 360
  ({ m with current_position := newpos }, writes)

/-- The difference normalization inside move_to_position: diff is the
target minus the current angle; above 180 subtract 360, below -180
add 360. -/
def normalizeDiff (current target : ℚ) : ℚ :=
  let diff := target - current
  if diff > 180 then diff - 360
  else if diff < -180 then diff + 360
  else diff

/-- The shortest-path planning step of move_to_position: clockwise when
the normalized difference is non-negative, magnitude is its absolute
value. -/
def planShortestPath (current target : ℚ) : Bool × ℚ :=
  (decide (normalizeDiff current target ≥ 0), |normalizeDiff current target|)

/-- move_to_position: looks the identifier up in POSITIONS (an unknown
identifier returns with no motion and no state change), plans the shortest
path, rotates only when the magnitude exceeds 0.1 degrees, and finally
force-sets the position to the exact target angle. -/
def StepperMotor.move_to_position (m : StepperMotor) (position_num : Int)
    (delay : ℚ) (mode : String) :
    StepperMotor × List (List (Nat × Nat)) :=
  match POSITIONS.lookup position_num with
  | none => (m, [])
  | some target_degrees =>
    let diff := normalizeDiff m.current_position target_degrees
    let clockwise := decide (diff ≥ 0)
    let degrees_to_move := |diff|
    let (m1, writes) :=
      if degrees_to_move > 1/10 then
        m.rotate_degrees degrees_to_move delay clockwise mode
      else (m, [])
    ({ m1 with current_position := target_degrees }, writes)

/-- move_to_home: move_to_position with identifier 0. -/
def StepperMotor.move_to_home (m : StepperMotor) (delay : ℚ) (mode : String) :
    StepperMotor × List (List (Nat × Nat)) :=
  m.move_to_position 0 delay mode

/-- stop: writes level 0 to every owned pin (individual pin writes, not a
phase-vector write). -/
def StepperMotor.stop (m : StepperMotor) : List (Nat × Nat) :=
  m.pins.map (fun pin => (pin, 0))

/-- hold: applies the first full-step vector to keep the coils energized. -/
def StepperMotor.hold (m : StepperMotor) : List (Nat × Nat) :=
  m.set_step (FULL_STEP.getD 0 [])

/-- reset_position: sets the tracked position to 0 with no pin writes. -/
def StepperMotor.reset_position (m : StepperMotor) :
    StepperMotor × List (List (Nat × Nat)) :=
  ({ m with current_position := 0 }, [])

/-- rotate_both: one shared loop index; on each tick both motors receive
their own (possibly mirrored) sequence entry.  Both motor states pass
through unchanged and no de-energization is performed after the loop. -/
def rotate_both (m1 m2 : StepperMotor) (steps : Nat) (delay : ℚ)
    (m1_cw m2_cw : Bool) (mode : String) :
    StepperMotor × StepperMotor × List (List (Nat × Nat)) :=
  let sequence := sequenceFor mode
  let seq_len := sequence.length
  let _ := delay
  (m1, m2, (List.range steps).map (fun i =>
    let idx := i % seq_len
    let idx1 := if m1_cw then idx else seq_len - 1 - idx
    let idx2 := if m2_cw then idx else seq_len - 1 - idx
    m1.set_step (sequence.getD idx1 []) ++ m2.set_step (sequence.getD idx2 [])))

/-- Replay a list of individual (pin, level) writes over a pin-level
state, later writes overriding earlier ones. -/
def applyPinWrites (s : Nat → Nat) (ws : List (Nat × Nat)) : Nat → Nat :=
  ws.foldl (fun st w => fun p => if p = w.1 then w.2 else st p) s

/-- Replay a list of pin-vector writes over a pin-level state. -/
def applyVecWrites (s : Nat → Nat) (ws : List (List (Nat × Nat))) : Nat → Nat :=
  applyPinWrites s ws.flatten

/-- Motor 1 as constructed in the main program. -/
def motor1 : StepperMotor :=
  { pins := [10, 9, 25, 11], name := "Motor 1", steps_per_rev := 200,
    current_position := 0 }

/-- Motor 2 as constructed in the main program. -/
def motor2 : StepperMotor :=
  { pins := [17, 22, 23, 24], name := "Motor 2", steps_per_rev := 200,
    current_position := 0 }

/-! ### Helper lemmas -/

lemma pymod_nonneg (x : ℚ) : 0 ≤ pymod x 360 := by
  have h1 : ((⌊x / 360⌋ : ℚ)) ≤ x / 360 := Int.floor_le _
  have h1' : (360 : ℚ) * ⌊x / 360⌋ ≤ x := by
    rw [mul_comm]
    exact (le_div_iff₀ (by norm_num)).mp h1
  unfold pymod
  linarith

lemma pymod_lt (x : ℚ) : pymod x 360 < 360 := by
  have h2 : x / 360 < ⌊x / 360⌋ + 1 := Int.lt_floor_add_one _
  have h2' : x < 360 * ⌊x / 360⌋ + 360 := by
    have := (div_lt_iff₀ (show (0:ℚ) < 360 by norm_num)).mp h2
    linarith
  unfold pymod
  linarith

lemma positions_lookup_bounds (pos : Int) (t : ℚ)
    (h : POSITIONS.lookup pos = some t) : 0 ≤ t ∧ t < 360 := by
  simp only [POSITIONS, List.lookup] at h
  repeat' split at h
  all_goals simp_all
  all_goals norm_num [← h]

lemma applyPinWrites_cons (s : Nat → Nat) (w : Nat × Nat)
    (rest : List (Nat × Nat)) :
    applyPinWrites s (w :: rest) =
      applyPinWrites (fun p => if p = w.1 then w.2 else s p) rest := rfl

lemma applyPinWrites_of_not_mem (ws : List (Nat × Nat)) (s : Nat → Nat)
    (p : Nat) (hp : p ∉ ws.map Prod.fst) : applyPinWrites s ws p = s p := by
  induction ws generalizing s with
  | nil => rfl
  | cons w rest ih =>
    simp only [List.map_cons, List.mem_cons] at hp
    push_neg at hp
    rw [applyPinWrites_cons, ih _ hp.2]
    simp [hp.1]

lemma applyPinWrites_zero_of_mem (ws : List (Nat × Nat)) (s : Nat → Nat)
    (p : Nat) (h0 : ∀ w ∈ ws, w.2 = 0) (hp : p ∈ ws.map Prod.fst) :
    applyPinWrites s ws p = 0 := by
  induction ws generalizing s with
  | nil => simp at hp
  | cons w rest ih =>
    rw [applyPinWrites_cons]
    by_cases hmem : p ∈ rest.map Prod.fst
    · exact ih _ (fun x hx => h0 x (List.mem_cons_of_mem _ hx)) hmem
    · have hpw : p = w.1 := by
        simp only [List.map_cons, List.mem_cons] at hp
        tauto
      rw [applyPinWrites_of_not_mem rest _ p hmem]
      simp [hpw, h0 w (List.mem_cons_self _ _)]

/-! ### Claim theorems -/

/-- C1 counterexample: the drive-mode argument "diag" is outside
{full, half, wave}, yet the rotation request is not rejected: it is
executed exactly as with mode "full", emitting a (non-empty) full-step
phase-vector write. -/
theorem rotate_invalid_mode_cex :
    motor1.rotate 1 (5/1000) true "diag" = motor1.rotate 1 (5/1000) true "full" ∧
    (motor1.rotate 1 (5/1000) true "diag").2 = [[(10, 1), (9, 0), (25, 1), (11, 0)]] := by
  constructor <;> rfl

/-- C1 amended: for every drive-mode argument outside {full, half, wave},
a rotation request is silently executed with the full-step sequence as a
default; it is not rejected. -/
theorem rotate_invalid_mode_full_fallback (m : StepperMotor) (steps : Nat)
    (delay : ℚ) (clockwise : Bool) (mode : String)
    (h1 : mode ≠ "half") (h2 : mode ≠ "wave") :
    m.rotate steps delay clockwise mode = m.rotate steps delay clockwise "full" := by
  have hs : sequenceFor mode = sequenceFor "full" := by
    rw [sequenceFor, if_neg h1, if_neg h2]
    rfl
  simp only [StepperMotor.rotate, hs]

/-- C1 witness: the amended fallback behavior at the concrete mode "diag". -/
theorem rotate_invalid_mode_full_fallback_witness :
    motor2.rotate 3 (5/1000) true "diag" = motor2.rotate 3 (5/1000) true "full" :=
  rotate_invalid_mode_full_fallback motor2 3 (5/1000) true "diag"
    (by decide) (by decide)

/-- C2 counterexample: rotate with one step on a motor at position 0 with
200 steps per revolution leaves the tracked position at 0, while the claim
requires an advance to 1 / (200 * 1) * 360 = 1.8 degrees (mod 360). -/
theorem rotate_position_advance_cex :
    (motor1.rotate 1 (5/1000) true "full").1.current_position = 0 ∧
    pymod (motor1.current_position + 1 / (200 * 1) * 360) 360 = 9/5 ∧
    (0 : ℚ) ≠ 9/5 := by
  refine ⟨rfl, ?_, by norm_num⟩
  norm_num [pymod, motor1]

/-- C2 amended: for every motor and every step count n, rotate performs
exactly n pin-vector writes and leaves the motor state, in particular the
tracked position, entirely unchanged (rotate does no position
bookkeeping); for n = 0 it is a no-op: no pin writes and no state
change. -/
theorem rotate_write_count_no_position_change (m : StepperMotor) (n : Nat)
    (delay : ℚ) (clockwise : Bool) (mode : String) :
    (m.rotate n delay clockwise mode).2.length = n ∧
    (m.rotate n delay clockwise mode).1 = m ∧
    (m.rotate 0 delay clockwise mode).2 = [] := by
  refine ⟨?_, rfl, rfl⟩
  simp [StepperMotor.rotate]

/-- C3 counterexample: rotate_degrees of 1 degree on a motor with 200
steps per revolution in full mode executes 0 steps (Python int truncates
200 / 360 = 0.55…), while the claim requires round(0.55…) = 1 step. -/
theorem rotate_degrees_round_cex :
    (motor1.rotate_degrees 1 (5/1000) true "full").2.length = 0 ∧
    round ((|(1 : ℚ)| / 360) * 200 * 1) = 1 ∧
    (0 : Nat) ≠ 1 := by
  refine ⟨?_, ?_, by norm_num⟩
  · have hm : resolutionMultiplier "full" = 1 := rfl
    simp only [StepperMotor.rotate_degrees, StepperMotor.rotate, motor1, hm]
    norm_num
  · rw [round_eq]
    norm_num

/-- C3 amended: for every degrees value, direction and mode,
rotate_degrees executes exactly int(|degrees| / 360 * stepsPerRevolution *
resolutionMultiplier(mode)) steps, truncation toward zero rather than
round, where resolutionMultiplier is 2 for half and 1 for every other
mode (in particular full and wave), and afterwards sets the tracked
position to (currentPositionDegrees + degrees) mod 360 for the clockwise
direction and (currentPositionDegrees - degrees) mod 360 for the reverse
direction (for degrees ≥ 0 this adds or subtracts the requested
magnitude, not the rounded step-derived magnitude). -/
theorem rotate_degrees_trunc_steps_position (m : StepperMotor) (degrees : ℚ)
    (delay : ℚ) (clockwise : Bool) (mode : String) :
    (m.rotate_degrees degrees delay clockwise mode).2.length =
      (⌊(|degrees| / 360) * m.steps_per_rev * resolutionMultiplier mode⌋).toNat ∧
    (m.rotate_degrees degrees delay clockwise mode).1.current_position =
      (if clockwise then pymod (m.current_position + degrees) 360
       else pymod (m.current_position - degrees) 360) ∧
    resolutionMultiplier "half" = 2 ∧ resolutionMultiplier "full" = 1 ∧
    resolutionMultiplier "wave" = 1 := by
  refine ⟨?_, rfl, rfl, rfl, rfl⟩
  simp [StepperMotor.rotate_degrees, StepperMotor.rotate]

/-- C4 counterexample: at current = 180 and target = 0 (both in [0, 360))
the stated normalization mechanism yields -180, which is not in the
claimed half-open interval (-180, 180]; the planner answers reverse with
magnitude 180 (under the claimed interval the direction would have to be
forward). -/
theorem planShortestPath_boundary_cex :
    normalizeDiff 180 0 = -180 ∧
    ¬(-180 < normalizeDiff 180 0) ∧
    (planShortestPath 180 0).1 = false ∧ (planShortestPath 180 0).2 = 180 := by
  have hn : normalizeDiff 180 0 = -180 := by norm_num [normalizeDiff]
  refine ⟨hn, by norm_num [hn], ?_, ?_⟩
  · simp only [planShortestPath, hn]
    norm_num
  · simp only [planShortestPath, hn]
    norm_num

/-- C4 amended: for all current and target angles in [0, 360), the
shortest-path planner computes diff = target - current and normalizes it
into the closed interval [-180, 180] (not the half-open (-180, 180]) by
subtracting 360 when diff > 180 and adding 360 when diff < -180; it
returns direction forward iff the normalized diff is non-negative and
magnitude = the absolute normalized diff, which never exceeds 180.  The
boundary value -180 arises exactly when the angles are 180 apart with
target below current, and is answered as reverse / 180. -/
theorem planShortestPath_range (current target : ℚ)
    (h0 : 0 ≤ current) (h1 : current < 360)
    (h2 : 0 ≤ target) (h3 : target < 360) :
    (-180 ≤ normalizeDiff current target ∧ normalizeDiff current target ≤ 180) ∧
    ((planShortestPath current target).1 = true ↔
      0 ≤ normalizeDiff current target) ∧
    (planShortestPath current target).2 = |normalizeDiff current target| ∧
    (planShortestPath current target).2 ≤ 180 := by
  have hb : -180 ≤ normalizeDiff current target ∧
      normalizeDiff current target ≤ 180 := by
    simp only [normalizeDiff]
    split_ifs <;> constructor <;> linarith
  refine ⟨hb, ?_, rfl, ?_⟩
  · simp [planShortestPath, ge_iff_le]
  · show |normalizeDiff current target| ≤ 180
    rw [abs_le]
    exact ⟨hb.1, hb.2⟩

/-- C4 witness: at current = 10 and target = 350 the planner returns
direction reverse with magnitude 20, and the amended range facts hold. -/
theorem planShortestPath_range_witness :
    ((planShortestPath 10 350).1 = false ∧ (planShortestPath 10 350).2 = 20) ∧
    ((-180 ≤ normalizeDiff 10 350 ∧ normalizeDiff 10 350 ≤ 180) ∧
     ((planShortestPath 10 350).1 = true ↔ 0 ≤ normalizeDiff 10 350) ∧
     (planShortestPath 10 350).2 = |normalizeDiff 10 350| ∧
     (planShortestPath 10 350).2 ≤ 180) :=
  ⟨by
    have hn : normalizeDiff 10 350 = -20 := by norm_num [normalizeDiff]
    constructor <;> simp only [planShortestPath, hn] <;> norm_num,
   planShortestPath_range 10 350 (by norm_num) (by norm_num) (by norm_num)
     (by norm_num)⟩

/-- For a known identifier, move_to_position finally force-sets the
tracked position to the exact target angle from the table. -/
lemma move_to_position_position_eq (m : StepperMotor) (pos : Int)
    (delay : ℚ) (mode : String) (t : ℚ) (h : POSITIONS.lookup pos = some t) :
    (m.move_to_position pos delay mode).1.current_position = t := by
  unfold StepperMotor.move_to_position
  rw [h]

/-- For a known identifier whose planned magnitude is at most 0.1 degrees,
move_to_position emits no pin-vector writes. -/
lemma move_to_position_no_motion_of_small (m : StepperMotor) (pos : Int)
    (delay : ℚ) (mode : String) (t : ℚ) (h : POSITIONS.lookup pos = some t)
    (hle : |normalizeDiff m.current_position t| ≤ 1/10) :
    (m.move_to_position pos delay mode).2 = [] := by
  unfold StepperMotor.move_to_position
  rw [h]
  simp only
  rw [if_neg (not_lt.mpr hle)]

/-- C5: for every position identifier not present in POSITIONS,
move_to_position issues no motion (zero pin-vector writes) and leaves the
motor state, in particular the tracked position, unchanged, returning
normally. -/
theorem move_to_position_unknown_id_noop (m : StepperMotor) (pos : Int)
    (delay : ℚ) (mode : String) (h : POSITIONS.lookup pos = none) :
    m.move_to_position pos delay mode = (m, []) := by
  unfold StepperMotor.move_to_position
  rw [h]

/-- C5 witness: identifier 7 is unknown and produces no motion and no
state change. -/
theorem move_to_position_unknown_id_noop_witness :
    motor1.move_to_position 7 (5/1000) "full" = (motor1, []) :=
  move_to_position_unknown_id_noop motor1 7 (5/1000) "full" (by decide)

/-- C6: for every identifier present in POSITIONS, after move_to_position
completes the tracked position equals exactly the table angle, regardless
of step-count rounding; and when the planned magnitude is at most the
0.1 degree epsilon, no rotation is invoked yet the position is still set
to the exact target. -/
theorem move_to_position_exact_target (m : StepperMotor) (pos : Int)
    (delay : ℚ) (mode : String) (t : ℚ) (h : POSITIONS.lookup pos = some t) :
    (m.move_to_position pos delay mode).1.current_position = t ∧
    (|normalizeDiff m.current_position t| ≤ 1/10 →
      (m.move_to_position pos delay mode).2 = []) :=
  ⟨move_to_position_position_eq m pos delay mode t h,
   fun hle => move_to_position_no_motion_of_small m pos delay mode t h hle⟩

/-- Motor 1 already standing at 90 degrees. -/
def motor1At90 : StepperMotor :=
  { pins := [10, 9, 25, 11], name := "Motor 1", steps_per_rev := 200,
    current_position := 90 }

/-- C6 witness: moving a motor standing at 90 degrees to identifier 2
(angle 90) sets the position to exactly 90 and, the planned magnitude
being 0 ≤ 0.1, emits no pin-vector write. -/
theorem move_to_position_exact_target_witness :
    (motor1At90.move_to_position 2 (5/1000) "full").1.current_position = 90 ∧
    (motor1At90.move_to_position 2 (5/1000) "full").2 = [] :=
  have h := move_to_position_exact_target motor1At90 2 (5/1000) "full" 90
    (by decide)
  ⟨h.1, h.2 (by norm_num [normalizeDiff, motor1At90])⟩

/-- C7: reset_position (the calibration operation) sets the tracked
position to 0 while performing zero pin writes, and every other field of
the motor (pins, name, steps per revolution) is unchanged. -/
theorem reset_position_calibrate_frame (m : StepperMotor) :
    m.reset_position.1.current_position = 0 ∧
    m.reset_position.2 = [] ∧
    m.reset_position.1.pins = m.pins ∧
    m.reset_position.1.name = m.name ∧
    m.reset_position.1.steps_per_rev = m.steps_per_rev :=
  ⟨rfl, rfl, rfl, rfl, rfl⟩

/-- C8: after every position-mutating operation (rotate_degrees for any
degrees and direction, move_to_position for any valid identifier,
reset_position), the tracked position lies in [0, 360): it is taken
modulo 360 and is non-negative. -/
theorem position_invariant_mod360 (m : StepperMotor) (degrees delay : ℚ)
    (clockwise : Bool) (mode : String) (pos : Int) (t : ℚ) :
    (0 ≤ (m.rotate_degrees degrees delay clockwise mode).1.current_position ∧
     (m.rotate_degrees degrees delay clockwise mode).1.current_position < 360) ∧
    (POSITIONS.lookup pos = some t →
      0 ≤ (m.move_to_position pos delay mode).1.current_position ∧
      (m.move_to_position pos delay mode).1.current_position < 360) ∧
    (0 ≤ m.reset_position.1.current_position ∧
     m.reset_position.1.current_position < 360) := by
  refine ⟨?_, ?_, by norm_num [StepperMotor.reset_position]⟩
  · have h1 : (m.rotate_degrees degrees delay clockwise mode).1.current_position =
        if clockwise then pymod (m.current_position + degrees) 360
        else pymod (m.current_position - degrees) 360 := rfl
    rw [h1]
    split <;> exact ⟨pymod_nonneg _, pymod_lt _⟩
  · intro h
    rw [move_to_position_position_eq m pos delay mode t h]
    exact positions_lookup_bounds pos t h

/-- C8 witness: moving motor 1 to identifier 2 lands the tracked position
inside [0, 360). -/
theorem position_invariant_mod360_witness :
    0 ≤ (motor1.move_to_position 2 (5/1000) "full").1.current_position ∧
    (motor1.move_to_position 2 (5/1000) "full").1.current_position < 360 :=
  (position_invariant_mod360 motor1 30 (5/1000) true "full" 2 90).2.1
    (by decide)

/-- C9 counterexample: after rotate_both with one step in full mode on the
two program motors, starting from all pins de-energized, pin 10 (the
first coil line of motor 1) is left at level 1: the command does not leave
every coil pin at the de-energized level. -/
theorem rotate_both_no_deenergize_cex :
    applyVecWrites (fun _ => 0)
      (rotate_both motor1 motor2 1 (5/1000) true true "full").2.2 10 = 1 ∧
    (1 : Nat) ≠ 0 :=
  ⟨rfl, by norm_num⟩

/-- Every write emitted by stop carries level 0. -/
lemma stop_snd_zero (m : StepperMotor) : ∀ w ∈ m.stop, w.2 = 0 := by
  intro w hw
  simp only [StepperMotor.stop, List.mem_map] at hw
  obtain ⟨pin, _, rfl⟩ := hw
  rfl

/-- The pins targeted by stop are exactly the owned pins. -/
lemma stop_map_fst (m : StepperMotor) : m.stop.map Prod.fst = m.pins := by
  simp only [StepperMotor.stop, List.map_map]
  exact List.map_id m.pins

/-- C9 amended: rotate_both itself performs no de-energization (its last
emitted phase vector remains on the pins); de-energization of every coil
pin of both motors holds only after stop is subsequently applied to each
motor, which drives every owned pin to level 0 whatever the step count,
directions and mode were. -/
theorem rotate_both_then_stop_deenergizes (s : Nat → Nat)
    (m1 m2 : StepperMotor) (steps : Nat) (delay : ℚ) (m1_cw m2_cw : Bool)
    (mode : String) (p : Nat) (hp : p ∈ m1.pins ∨ p ∈ m2.pins) :
    applyPinWrites
      (applyVecWrites s (rotate_both m1 m2 steps delay m1_cw m2_cw mode).2.2)
      (m1.stop ++ m2.stop) p = 0 := by
  apply applyPinWrites_zero_of_mem
  · intro w hw
    rcases List.mem_append.mp hw with h | h
    · exact stop_snd_zero m1 w h
    · exact stop_snd_zero m2 w h
  · rw [List.map_append, stop_map_fst, stop_map_fst]
    exact List.mem_append.mpr hp

/-- C9 witness: after one full-mode rotate_both step followed by stop on
both motors, pin 10 of motor 1 reads level 0. -/
theorem rotate_both_then_stop_deenergizes_witness :
    applyPinWrites
      (applyVecWrites (fun _ => 0)
        (rotate_both motor1 motor2 1 (5/1000) true true "full").2.2)
      (motor1.stop ++ motor2.stop) 10 = 0 :=
  rotate_both_then_stop_deenergizes (fun _ => 0) motor1 motor2 1 (5/1000)
    true true "full" 10 (Or.inl (by decide))

/-- C10: rotate_both leaves the two motor states, in particular both
tracked positions, entirely unchanged: synchronized motion performs no
position bookkeeping at all. -/
theorem rotate_both_positions_unchanged (m1 m2 : StepperMotor) (steps : Nat)
    (delay : ℚ) (m1_cw m2_cw : Bool) (mode : String) :
    (rotate_both m1 m2 steps delay m1_cw m2_cw mode).1.current_position =
      m1.current_position ∧
    (rotate_both m1 m2 steps delay m1_cw m2_cw mode).2.1.current_position =
      m2.current_position ∧
    (rotate_both m1 m2 steps delay m1_cw m2_cw mode).1 = m1 ∧
    (rotate_both m1 m2 steps delay m1_cw m2_cw mode).2.1 = m2 :=
  ⟨rfl, rfl, rfl, rfl⟩
